import Mathlib

/-!
# Verification of the powerlifting-dashboard analytics core

Shallow embedding of the analytics logic of `app.py` and `app_parquet.py`:
cohort filtering, percentile ranking, quantile thresholds, goal allocation,
and the OLS trend projection.  Numeric values are modelled as `ℚ` (pandas
floats, exact arithmetic), nullable dataframe cells as `Option`, and calendar
dates as a proleptic-Gregorian `Date` matching Python's `datetime.toordinal`.
-/

namespace Dashboard

/-- One row of the results dataframe, restricted to the columns the
analytics claims touch.  `none` models a NaN/null cell. -/
structure Record where
  name : String
  sex : Option String
  equipment : Option String
  country : Option String
  ageClass : Option String
  year : Option ℤ
  totalKg : Option ℚ
  bodyweightKg : Option ℚ
deriving DecidableEq

/-- The sidebar filter configuration of `app.py` tab 1 (lines 178-185):
`none` on a categorical field models the "Todos" selection; the two ranges
come from the sliders and are always present. -/
structure Criteria where
  sex : Option String
  equipment : Option String
  country : Option String
  ageClass : Option String
  yearRange : ℤ × ℤ
  totalRange : ℚ × ℚ
deriving DecidableEq

/-- One `if xxx_filter != "Todos": filtered = filtered[filtered[col] == xxx_filter]`
step of `app.py` lines 202-209.  A null cell never equals a selected string
(pandas `NaN == s` is `False`). -/
def optFilter (sel : Option String) (proj : Record → Option String)
    (r : List Record) : List Record :=
  match sel with
  | none => r
  | some s => r.filter (fun rec => decide (proj rec = some s))

/-- The unconditional range filter of `app.py` lines 210-215: pandas
comparisons with NaN are `False`, so a null `Year` or `TotalKg` is dropped. -/
def rangeFilter (c : Criteria) (r : List Record) : List Record :=
  r.filter (fun rec =>
    (match rec.year with
     | some y => decide (c.yearRange.1 ≤ y) && decide (y ≤ c.yearRange.2)
     | none => false)
    &&
    (match rec.totalKg with
     | some t => decide (c.totalRange.1 ≤ t) && decide (t ≤ c.totalRange.2)
     | none => false))

/-- The full filter application of `app.py` lines 201-215 (same structure as
`app_parquet.py` lines 215-227): four guarded categorical equality filters
followed by the year and total range filter. -/
def applyFilters (df : List Record) (c : Criteria) : List Record :=
  rangeFilter c
    (optFilter c.ageClass Record.ageClass
      (optFilter c.country Record.country
        (optFilter c.equipment Record.equipment
          (optFilter c.sex Record.sex df))))

/-- `pd.to_numeric(series, errors='coerce').dropna()` of
`_percentile_less_than` (`app_parquet.py` line 573): null and non-numeric
entries (both modelled as `none`) are dropped. -/
def validValues (series : List (Option ℚ)) : List ℚ :=
  series.filterMap id

/-- `_percentile_less_than` (`app_parquet.py` lines 572-576): coerce to
numeric, drop NaN, return `0.0` on an empty result, else
`(s < value).mean() * 100` — the mean of the boolean series, i.e. the count
of strictly smaller entries over the count of valid entries, times 100. -/
def percentileLessThan (series : List (Option ℚ)) (value : ℚ) : ℚ :=
  let s := validValues series
  if s.length = 0 then 0
  else ((s.countP (fun x => decide (x < value)) : ℕ) : ℚ) / (s.length : ℚ) * 100

/-- The tab-5 percentile of `app.py` lines 657-658:
`rank = (comp_df["TotalKg"] < total_in).sum(); percentil = rank / len(comp_df) * 100`
over a cohort whose totals were already `dropna`-ed. -/
def tab5Percentil (cohort : List ℚ) (v : ℚ) : ℚ :=
  ((cohort.countP (fun x => decide (x < v)) : ℕ) : ℚ) / (cohort.length : ℚ) * 100

/-- The comparison cohort of `app_parquet.py` lines 616-621: rows matching
the user's sex, equipment and age class whose `TotalKg` is not null.  The
source compares `df[col].astype(str) == str(user_choice)`; a null cell
becomes the string "nan", which never equals a choice drawn from the
non-null option lists, so a null categorical cell never matches. -/
def comparisonData (df : List Record) (userSex userEquip userAge : String) :
    List Record :=
  df.filter (fun r =>
    decide (r.sex = some userSex) && decide (r.equipment = some userEquip)
    && decide (r.ageClass = some userAge) && r.totalKg.isSome)

/-- The guarded personal-comparison flow of `app_parquet.py` lines 616-630:
build the cohort, stop with a warning (`none`) when it has 10 or fewer rows
(`if len(comparison_data) <= 10: st.warning(...); st.stop()`), otherwise
compute the percentile.  Every later statistic (quantiles, goal allocation)
lives inside the same guarded branch. -/
def tab5CompareFlow (df : List Record) (userSex userEquip userAge : String)
    (userTotal : ℚ) : Option ℚ :=
  let cohort := comparisonData df userSex userEquip userAge
  if cohort.length ≤ 10 then none
  else some (percentileLessThan (cohort.map Record.totalKg) userTotal)

/-- The proportional allocation of `app_parquet.py` lines 711-716:
`improvement_needed = obj_total - user_total`, each lift's delta is
`improvement_needed * (lift / total_lifts)` with
`total_lifts = user_squat + user_bench + user_deadlift`. -/
def allocate (target s b d : ℚ) : ℚ × ℚ × ℚ :=
  let tl := s + b + d
  let imp := target - tl
  (imp * (s / tl), imp * (b / tl), imp * (d / tl))

/-- The candidate goal list of `app_parquet.py` lines 701-707, in source
order: category average, then the 50th, 75th, 90th and 95th percentile
thresholds. -/
def objectives (avg q50 q75 q90 q95 : ℚ) : List (String × ℚ) :=
  [("Promedio de categoría", avg), ("Top 50%", q50), ("Top 25%", q75),
   ("Top 10%", q90), ("Top 5%", q95)]

/-- The goal-selection loop of `app_parquet.py` lines 709-725: walk the
candidates in order, and at the first one with `obj_total > user_total`
(where `user_total = s + b + d`) emit the proportional allocation, provided
`total_lifts > 0`; when no candidate exceeds the total the loop falls
through to the `AlreadyAboveAllGoals` info message (`none`). -/
def goalLoop (objs : List (String × ℚ)) (s b d : ℚ) :
    Option (String × ℚ × (ℚ × ℚ × ℚ)) :=
  match objs with
  | [] => none
  | (nm, objTotal) :: rest =>
    if s + b + d < objTotal then
      if 0 < s + b + d then
        some (nm, objTotal, allocate objTotal s b d)
      else goalLoop rest s b d
    else goalLoop rest s b d

/-- Spec-side description of the goal policy ("select the first candidate
whose value strictly exceeds the user's current total"), to be compared
with `goalLoop`. -/
def firstExceeding (objs : List (String × ℚ)) (total : ℚ) :
    Option (String × ℚ) :=
  objs.find? (fun o => decide (total < o.2))

/-- A calendar date as Python's `datetime.date` holds it (proleptic
Gregorian calendar, `year ≥ 1`). -/
structure Date where
  year : ℕ
  month : ℕ
  day : ℕ
deriving DecidableEq

/-- Gregorian leap-year rule. -/
def isLeap (y : ℕ) : Bool :=
  y % 4 = 0 && (y % 100 ≠ 0 || y % 400 = 0)

/-- Length of month `m` (1-12) of year `y`. -/
def daysInMonth (y m : ℕ) : ℕ :=
  if m = 2 then (if isLeap y then 29 else 28)
  else if m = 4 ∨ m = 6 ∨ m = 9 ∨ m = 11 then 30
  else 31

/-- Days of year `y` strictly before month `m`. -/
def daysBeforeMonth (y m : ℕ) : ℕ :=
  (List.range (m - 1)).foldl (fun acc i => acc + daysInMonth y (i + 1)) 0

/-- `datetime.toordinal`: day count with 0001-01-01 ↦ 1. -/
def Date.toOrdinal (d : Date) : ℕ :=
  365 * (d.year - 1) + (d.year - 1) / 4 - (d.year - 1) / 100 + (d.year - 1) / 400
    + daysBeforeMonth d.year d.month + d.day

/-- `pd.DateOffset(months=6)`: add six months, clamping the day to the
length of the resulting month (e.g. Mar 31 + 6 months = Sep 30). -/
def Date.addMonths6 (d : Date) : Date :=
  let m := d.month + 6
  if m > 12 then
    ⟨d.year + 1, m - 12, min d.day (daysInMonth (d.year + 1) (m - 12))⟩
  else
    ⟨d.year, m, min d.day (daysInMonth d.year m)⟩

/-- `me[["Date", col]].dropna()` of `app.py` lines 547 and 603: keep the
rows where both the date and the metric value are present. -/
def dropna (obs : List (Option Date × Option ℚ)) : List (Date × ℚ) :=
  obs.filterMap (fun p =>
    match p with
    | (some d, some v) => some (d, v)
    | _ => none)

/-- Maximum of a nonempty list of rationals (`series.max()`); `0` only for
the empty list, which the call sites never pass. -/
def listMax : List ℚ → ℚ
  | [] => 0
  | x :: xs => xs.foldl max x

/-- `d["Date"].max()`: the latest date of the observation rows (dates
compare by ordinal). -/
def maxDate (d : List (Date × ℚ)) : Date :=
  match d with
  | [] => ⟨1, 1, 1⟩
  | (x, _) :: xs =>
      xs.foldl (fun acc p =>
        if acc.toOrdinal < p.1.toOrdinal then p.1 else acc) x

/-- `np.polyfit(x, y, 1)` on (day-ordinal, value) pairs: the closed-form
ordinary-least-squares slope and intercept.  A zero-variance independent
variable makes the normal equations singular; per spec §4.3 this degenerate
fit is Undefined and modelled as `none`. -/
def olsFit (d : List (ℤ × ℚ)) : Option (ℚ × ℚ) :=
  let n : ℚ := (d.length : ℚ)
  let sx : ℚ := (d.map (fun p => (p.1 : ℚ))).sum
  let sy : ℚ := (d.map Prod.snd).sum
  let sxx : ℚ := (d.map (fun p => (p.1 : ℚ) * (p.1 : ℚ))).sum
  let sxy : ℚ := (d.map (fun p => (p.1 : ℚ) * p.2)).sum
  let den := n * sxx - sx * sx
  if den = 0 then none
  else
    let slope := (n * sxy - sx * sy) / den
    some (slope, (sy - slope * sx) / n)

/-- The displayed six-month projection point of `plot_with_projection`
(`app.py` lines 547-561): after `dropna`, when at least 3 rows remain, fit
the OLS line on (ordinal, value), take `fut = d["Date"].max() + 6 months`
and display the raw extrapolation `y_fut = coef[0]*fut.toordinal() + coef[1]`.
No floor is applied here. -/
def plotProjection (obs : List (Option Date × Option ℚ)) : Option ℚ :=
  let d := dropna obs
  if 3 ≤ d.length then
    match olsFit (d.map (fun p => ((p.1.toOrdinal : ℤ), p.2))) with
    | some (slope, intercept) =>
        some (slope * ((maxDate d).addMonths6.toOrdinal : ℚ) + intercept)
    | none => none
  else none

/-- One row of the tab-4 six-month projection loop (`app.py` lines
603-610): the pair `(d[col].max(), max(y_fut, d[col].max()))` — the PR and
the floored projection shown in the bar chart. -/
def tab4Projection (obs : List (Option Date × Option ℚ)) : Option (ℚ × ℚ) :=
  let d := dropna obs
  if 3 ≤ d.length then
    match olsFit (d.map (fun p => ((p.1.toOrdinal : ℤ), p.2))) with
    | some (slope, intercept) =>
        let yFut := slope * ((maxDate d).addMonths6.toOrdinal : ℚ) + intercept
        let prMax := listMax (d.map Prod.snd)
        some (prMax, max yFut prMax)
    | none => none
  else none

/-- Linear interpolation into a sorted sample `s` at fractional position
`h`: with lower index `i = ⌊h⌋` and fraction `γ = h - i`, the value is
`s[i] + γ*(s[i+1] - s[i])` (`s[i]` itself when `i` is the last index, where
`getD` falls back to its default). -/
def interpAt (s : List ℚ) (h : ℚ) : ℚ :=
  let i : ℕ := (⌊h⌋).toNat
  let lo := s.getD i 0
  let hi := s.getD (i + 1) lo
  lo + (h - (i : ℚ)) * (hi - lo)

/-- Linear interpolation between order statistics of an already sorted
sample `s` at probability `p`: position `h = (n-1)*p`. -/
def interpQuantile (s : List ℚ) (p : ℚ) : ℚ :=
  if s.length = 0 then 0
  else interpAt s (((s.length - 1 : ℕ) : ℚ) * p)

/-- `Series.quantile(p)` with pandas' default `interpolation='linear'`
(used at `app_parquet.py` lines 640 and 703-706): sort the sample and
interpolate linearly between order statistics. -/
def quantile (l : List ℚ) (p : ℚ) : ℚ :=
  interpQuantile (l.insertionSort (· ≤ ·)) p

/-! ## Theorems -/

theorem validValues_map_some (l : List ℚ) : validValues (l.map some) = l := by
  simp [validValues]

theorem countP_trichotomy (cohort : List ℚ) (v : ℚ) :
    cohort.countP (fun x => decide (x < v)) + cohort.countP (fun x => decide (x = v))
      + cohort.countP (fun x => decide (v < x)) = cohort.length := by
  induction cohort with
  | nil => simp
  | cons a t ih =>
    simp only [List.countP_cons, List.length_cons, decide_eq_true_eq]
    split_ifs <;>
      first
        | omega
        | linarith
        | (rcases lt_trichotomy a v with h | h | h <;> simp_all)

/-- C2: for every non-empty cohort of (valid) metric values and scalar user
value, the percentile — both the `_percentile_less_than` helper of
`app_parquet.py` and the tab-5 computation of `app.py` — equals the number
of cohort values strictly below the user value, divided by the cohort size,
times 100; values equal to the user value fall in neither the
strictly-below nor the strictly-above count. -/
theorem percentile_is_strict_less_fraction (cohort : List ℚ) (v : ℚ)
    (hne : cohort ≠ []) :
    percentileLessThan (cohort.map some) v
        = ((cohort.countP (fun x => decide (x < v)) : ℕ) : ℚ) / (cohort.length : ℚ) * 100
    ∧ tab5Percentil cohort v
        = ((cohort.countP (fun x => decide (x < v)) : ℕ) : ℚ) / (cohort.length : ℚ) * 100
    ∧ cohort.countP (fun x => decide (x < v)) + cohort.countP (fun x => decide (x = v))
        + cohort.countP (fun x => decide (v < x)) = cohort.length := by
  have hlen : cohort.length ≠ 0 := fun h => hne (List.length_eq_zero.mp h)
  refine ⟨?_, rfl, countP_trichotomy cohort v⟩
  rw [percentileLessThan, validValues_map_some]
  simp [hlen]

/-- Witness for C2 at the spec's concrete scenario 1. -/
theorem percentile_is_strict_less_fraction_witness :
    (([80, 90, 100, 110, 120] : List ℚ) ≠ [])
    ∧ tab5Percentil [80, 90, 100, 110, 120] 95
        = ((([80, 90, 100, 110, 120] : List ℚ).countP (fun x => decide (x < 95)) : ℕ) : ℚ)
            / (([80, 90, 100, 110, 120] : List ℚ).length : ℚ) * 100 :=
  ⟨by simp, (percentile_is_strict_less_fraction [80, 90, 100, 110, 120] 95 (by simp)).2.1⟩

/-- C4 counterexample: the ranking helper `_percentile_less_than`, applied
to an empty cohort, returns the numeric percentile `0.0` — it does not
signal InsufficientData. -/
theorem empty_cohort_returns_zero : percentileLessThan [] 95 = 0 := by
  simp [percentileLessThan, validValues]

/-- C4 (amended): the guarded comparison flow produces no percentile for an
empty cohort (the `len <= 10` guard stops with a warning first), while the
bare `_percentile_less_than` helper on an empty cohort returns the numeric
value `0.0` rather than signalling. -/
theorem empty_cohort_no_percentile (df : List Record) (us ue ua : String) (v : ℚ)
    (h : comparisonData df us ue ua = []) :
    tab5CompareFlow df us ue ua v = none ∧ percentileLessThan [] v = 0 := by
  constructor
  · simp [tab5CompareFlow, h]
  · simp [percentileLessThan, validValues]

/-- Witness for C4 (amended) on the empty dataset. -/
theorem empty_cohort_no_percentile_witness :
    comparisonData [] "M" "Raw" "24-34" = []
    ∧ tab5CompareFlow [] "M" "Raw" "24-34" 400 = none :=
  ⟨rfl, (empty_cohort_no_percentile [] "M" "Raw" "24-34" 400 rfl).1⟩

/-- C6: for a target above the current total, with the three lift values
summing to the current total, the three proportionally allocated deltas sum
exactly to `target - current_total` (exact in rational arithmetic). -/
theorem allocate_sums_to_improvement (target s b d : ℚ)
    (_hs : 0 ≤ s) (_hb : 0 ≤ b) (_hd : 0 ≤ d)
    (hpos : 0 < s + b + d) (_htgt : s + b + d < target) :
    (allocate target s b d).1 + (allocate target s b d).2.1 + (allocate target s b d).2.2
      = target - (s + b + d) := by
  have h0 : s + b + d ≠ 0 := ne_of_gt hpos
  simp only [allocate]
  field_simp
  ring

/-- Witness for C6 at the spec's concrete scenario 4. -/
theorem allocate_sums_to_improvement_witness :
    (allocate 440 150 100 150).1 + (allocate 440 150 100 150).2.1
        + (allocate 440 150 100 150).2.2 = 440 - (150 + 100 + 150) :=
  allocate_sums_to_improvement 440 150 100 150 (by norm_num) (by norm_num) (by norm_num)
    (by norm_num) (by norm_num)

/-- C9: the personal-comparison flow of `app_parquet.py` yields no result
(stops at the warning) exactly when the comparison cohort — records
matching the user's sex, equipment and age class with non-null total — has
10 or fewer records; every percentile (and everything downstream) is
computed only in the other branch. -/
theorem comparison_flow_guard (df : List Record) (us ue ua : String) (v : ℚ) :
    tab5CompareFlow df us ue ua v = none ↔ (comparisonData df us ue ua).length ≤ 10 := by
  by_cases h : (comparisonData df us ue ua).length ≤ 10 <;> simp [tab5CompareFlow, h]

/-- Witness for C9: a singleton dataset yields a cohort of size 1 ≤ 10 and
the flow stops. -/
theorem comparison_flow_guard_witness :
    tab5CompareFlow
      [⟨"A", some "M", some "Raw", some "USA", some "24-34", some 2010, some 500, some 80⟩]
      "M" "Raw" "24-34" 400 = none :=
  (comparison_flow_guard _ "M" "Raw" "24-34" 400).mpr (by simp [comparisonData])

/-- C10: `_percentile_less_than` coerces to numeric and drops null entries
first, so a null (or non-numeric) entry anywhere in the series changes
neither the valid-value list (hence neither numerator nor denominator) nor
the resulting percentile; the denominator is the count of valid values. -/
theorem percentile_ignores_nulls (pre post : List (Option ℚ)) (v : ℚ) :
    validValues (pre ++ none :: post) = validValues (pre ++ post)
    ∧ percentileLessThan (pre ++ none :: post) v = percentileLessThan (pre ++ post) v := by
  have h : validValues (pre ++ none :: post) = validValues (pre ++ post) := by
    simp [validValues]
  exact ⟨h, by rw [percentileLessThan, percentileLessThan, h]⟩

/-- C8: when fewer than 3 observation rows have both a date and a value,
neither projection site produces a projection (`len(d) >= 3` guards in
`plot_with_projection` and the tab-4 loop). -/
theorem projection_requires_three_points (obs : List (Option Date × Option ℚ))
    (h : (dropna obs).length < 3) :
    plotProjection obs = none ∧ tab4Projection obs = none := by
  have h3 : ¬ 3 ≤ (dropna obs).length := by omega
  exact ⟨by simp [plotProjection, h3], by simp [tab4Projection, h3]⟩

/-- Witness for C8 at the spec's concrete scenario 3 (two observations). -/
theorem projection_requires_three_points_witness :
    plotProjection [(some ⟨2020, 1, 1⟩, some 100), (some ⟨2020, 1, 31⟩, some 105)] = none
    ∧ tab4Projection [(some ⟨2020, 1, 1⟩, some 100), (some ⟨2020, 1, 31⟩, some 105)] = none :=
  projection_requires_three_points _ (by simp [dropna])

theorem goalLoop_eq_firstExceeding (objs : List (String × ℚ)) (s b d : ℚ)
    (h : 0 < s + b + d) :
    goalLoop objs s b d
      = (firstExceeding objs (s + b + d)).map (fun o => (o.1, o.2, allocate o.2 s b d)) := by
  induction objs with
  | nil => rfl
  | cons o rest ih =>
    obtain ⟨nm, tv⟩ := o
    by_cases hc : s + b + d < tv
    · simp [goalLoop, firstExceeding, List.find?, hc, h]
    · simp only [goalLoop, if_neg hc]
      rw [ih]
      simp [firstExceeding, List.find?, hc]

/-- C7: the goal-selection step walks the candidates in the source order
(category average, then 50th, 75th, 90th, 95th percentile thresholds),
allocates toward the first whose value strictly exceeds the user's total
`s + b + d`, and produces no allocation exactly when no candidate exceeds
it (the "already above Top 5%" terminal message). -/
theorem goal_selection_policy (avg q50 q75 q90 q95 s b d : ℚ) (h : 0 < s + b + d) :
    goalLoop (objectives avg q50 q75 q90 q95) s b d
      = (firstExceeding (objectives avg q50 q75 q90 q95) (s + b + d)).map
          (fun o => (o.1, o.2, allocate o.2 s b d))
    ∧ (goalLoop (objectives avg q50 q75 q90 q95) s b d = none ↔
        avg ≤ s + b + d ∧ q50 ≤ s + b + d ∧ q75 ≤ s + b + d
          ∧ q90 ≤ s + b + d ∧ q95 ≤ s + b + d) := by
  refine ⟨goalLoop_eq_firstExceeding _ s b d h, ?_⟩
  rw [goalLoop_eq_firstExceeding _ s b d h]
  simp [firstExceeding, objectives, List.find?_eq_none, not_lt, Option.map_eq_none']

/-- Witness for C7: total 400, first candidate 410 already exceeds it. -/
theorem goal_selection_policy_witness :
    goalLoop (objectives 410 420 430 440 450) 150 100 150
      = (firstExceeding (objectives 410 420 430 440 450) (150 + 100 + 150)).map
          (fun o => (o.1, o.2, allocate o.2 150 100 150)) :=
  (goal_selection_policy 410 420 430 440 450 150 100 150 (by norm_num)).1

theorem mem_optFilter {sel : Option String} {proj : Record → Option String}
    {r : List Record} {rec : Record} :
    rec ∈ optFilter sel proj r ↔ rec ∈ r ∧ ∀ s, sel = some s → proj rec = some s := by
  cases sel with
  | none => simp [optFilter]
  | some s => simp [optFilter, List.mem_filter]

theorem optFilter_sublist (sel : Option String) (proj : Record → Option String)
    (r : List Record) : (optFilter sel proj r).Sublist r := by
  cases sel with
  | none => exact List.Sublist.refl r
  | some s => exact List.filter_sublist r

theorem mem_rangeFilter {c : Criteria} {r : List Record} {rec : Record} :
    rec ∈ rangeFilter c r ↔ rec ∈ r
      ∧ (∃ y, rec.year = some y ∧ c.yearRange.1 ≤ y ∧ y ≤ c.yearRange.2)
      ∧ (∃ t, rec.totalKg = some t ∧ c.totalRange.1 ≤ t ∧ t ≤ c.totalRange.2) := by
  rw [rangeFilter, List.mem_filter]
  cases hy : rec.year with
  | none => simp [hy]
  | some y =>
    cases ht : rec.totalKg with
    | none => simp [hy, ht]
    | some t => simp [hy, ht, and_assoc]

/-- C3 (amended): the filter result is a sublist of the dataset; every
record in the result satisfies every active categorical predicate and has
a non-null `Year` and `TotalKg` inside the respective range (so a record
with a null value in a constrained field is always excluded — and the two
range predicates are *always* active, full range or not); with all
categorical options unset the filter returns the whole dataset exactly
when every record's `Year` and `TotalKg` are non-null and within the
ranges. -/
theorem filter_subset_predicates (df : List Record) (c : Criteria) :
    (applyFilters df c).Sublist df
    ∧ (∀ rec ∈ applyFilters df c,
        (∀ s, c.sex = some s → rec.sex = some s)
        ∧ (∀ s, c.equipment = some s → rec.equipment = some s)
        ∧ (∀ s, c.country = some s → rec.country = some s)
        ∧ (∀ s, c.ageClass = some s → rec.ageClass = some s)
        ∧ (∃ y, rec.year = some y ∧ c.yearRange.1 ≤ y ∧ y ≤ c.yearRange.2)
        ∧ (∃ t, rec.totalKg = some t ∧ c.totalRange.1 ≤ t ∧ t ≤ c.totalRange.2))
    ∧ ((c.sex = none ∧ c.equipment = none ∧ c.country = none ∧ c.ageClass = none
        ∧ ∀ rec ∈ df,
            (∃ y, rec.year = some y ∧ c.yearRange.1 ≤ y ∧ y ≤ c.yearRange.2)
            ∧ (∃ t, rec.totalKg = some t ∧ c.totalRange.1 ≤ t ∧ t ≤ c.totalRange.2))
        → applyFilters df c = df) := by
  refine ⟨?_, ?_, ?_⟩
  · exact ((List.filter_sublist _).trans
      ((optFilter_sublist _ _ _).trans ((optFilter_sublist _ _ _).trans
        ((optFilter_sublist _ _ _).trans (optFilter_sublist _ _ _)))))
  · intro rec hmem
    rw [applyFilters, mem_rangeFilter] at hmem
    obtain ⟨hmem, hy, ht⟩ := hmem
    rw [mem_optFilter] at hmem
    obtain ⟨hmem, hage⟩ := hmem
    rw [mem_optFilter] at hmem
    obtain ⟨hmem, hcountry⟩ := hmem
    rw [mem_optFilter] at hmem
    obtain ⟨hmem, hequip⟩ := hmem
    rw [mem_optFilter] at hmem
    obtain ⟨_, hsex⟩ := hmem
    exact ⟨hsex, hequip, hcountry, hage, hy, ht⟩
  · rintro ⟨hsex, hequip, hcountry, hage, hall⟩
    rw [applyFilters, hsex, hequip, hcountry, hage]
    simp only [optFilter]
    rw [rangeFilter, List.filter_eq_self]
    intro rec hmem
    obtain ⟨⟨y, hy, hy1, hy2⟩, ⟨t, ht, ht1, ht2⟩⟩ := hall rec hmem
    rw [hy, ht]
    simp [hy1, hy2, ht1, ht2]

/-- C3 counterexample: with every categorical option unset and the ranges
at the dataset's full (non-null) extent, a record whose `TotalKg` is null
is still dropped, so the filter does not return the dataset unchanged. -/
theorem filter_counterexample :
    applyFilters
      [⟨"A", some "M", some "Raw", some "USA", some "24-34", some 2010, some 100, some 80⟩,
       ⟨"B", some "M", some "Raw", some "USA", some "24-34", some 2010, none, some 80⟩]
      ⟨none, none, none, none, (2010, 2010), (100, 100)⟩
      = [⟨"A", some "M", some "Raw", some "USA", some "24-34", some 2010, some 100, some 80⟩]
    ∧ ([⟨"A", some "M", some "Raw", some "USA", some "24-34", some 2010, some 100, some 80⟩]
        : List Record)
      ≠ [⟨"A", some "M", some "Raw", some "USA", some "24-34", some 2010, some 100, some 80⟩,
         ⟨"B", some "M", some "Raw", some "USA", some "24-34", some 2010, none, some 80⟩] := by
  constructor
  · simp [applyFilters, optFilter, rangeFilter, List.filter]
  · intro hEq
    exact absurd (congrArg List.length hEq) (by simp)

theorem le_foldl_max (t : List ℚ) (a : ℚ) : a ≤ t.foldl max a := by
  induction t generalizing a with
  | nil => exact le_refl a
  | cons b t ih =>
    simpa only [List.foldl_cons] using le_trans (le_max_left a b) (ih (max a b))

theorem mem_le_foldl_max {t : List ℚ} {x : ℚ} (hx : x ∈ t) (a : ℚ) :
    x ≤ t.foldl max a := by
  induction t generalizing a with
  | nil => cases hx
  | cons b t ih =>
    rcases List.mem_cons.mp hx with rfl | hx'
    · simpa only [List.foldl_cons] using le_trans (le_max_right a x) (le_foldl_max t (max a x))
    · simpa only [List.foldl_cons] using ih hx' (max a b)

theorem le_listMax {l : List ℚ} {x : ℚ} (hx : x ∈ l) : x ≤ listMax l := by
  cases l with
  | nil => cases hx
  | cons a t =>
    rcases List.mem_cons.mp hx with rfl | hx'
    · exact le_foldl_max t x
    · exact mem_le_foldl_max hx' a

/-- C1 (amended): the projection-floor policy holds in the tab-4 six-month
bar chart: whenever it produces a row `(pr, proj)`, the displayed
projection is `max(y_fut, d[col].max())`, hence at least the PR and at
least every observed value.  (The per-movement line charts of
`plot_with_projection` display the raw extrapolation instead; see the
counterexample.) -/
theorem tab4_projection_floor (obs : List (Option Date × Option ℚ)) (pr proj : ℚ)
    (h : tab4Projection obs = some (pr, proj)) :
    pr ≤ proj ∧ ∀ v ∈ (dropna obs).map Prod.snd, v ≤ proj := by
  rw [tab4Projection] at h
  by_cases h3 : 3 ≤ (dropna obs).length
  · rw [if_pos h3] at h
    cases hols : olsFit ((dropna obs).map (fun p => ((p.1.toOrdinal : ℤ), p.2))) with
    | none => rw [hols] at h; cases h
    | some coef =>
      obtain ⟨slope, intercept⟩ := coef
      rw [hols] at h
      simp only [Option.some.injEq, Prod.mk.injEq] at h
      obtain ⟨hpr, hproj⟩ := h
      subst hpr
      subst hproj
      refine ⟨le_max_right _ _, ?_⟩
      intro v hv
      exact le_trans (le_listMax hv) (le_max_right _ _)
  · rw [if_neg h3] at h
    cases h

/-- Witness for C1 (amended): three rising observations a day apart produce
the row `(110, 1015)` with `110 ≤ 1015`. -/
theorem tab4_projection_floor_witness :
    tab4Projection
        [(some ⟨1, 1, 1⟩, some 100), (some ⟨1, 1, 2⟩, some 105), (some ⟨1, 1, 3⟩, some 110)]
      = some (110, 1015)
    ∧ (110 : ℚ) ≤ 1015 := by
  have h : tab4Projection
      [(some ⟨1, 1, 1⟩, some 100), (some ⟨1, 1, 2⟩, some 105), (some ⟨1, 1, 3⟩, some 110)]
      = some (110, 1015) := by
    norm_num [tab4Projection, dropna, olsFit, maxDate, Date.addMonths6, Date.toOrdinal,
      daysBeforeMonth, daysInMonth, isLeap, listMax, List.range, List.range.loop,
      List.filterMap]
  exact ⟨h, (tab4_projection_floor _ 110 1015 h).1⟩

/-- C1 counterexample: in `plot_with_projection` the displayed six-month
projection is the raw OLS extrapolation with no floor.  For the declining
observations (day 1, 100), (day 2, 95), (day 3, 90) the chart displays
`-815`, while the maximum observed value is `100`, so the displayed value
differs from `max(raw extrapolation, max observed)` = `100`. -/
theorem plot_projection_no_floor :
    plotProjection
        [(some ⟨1, 1, 1⟩, some 100), (some ⟨1, 1, 2⟩, some 95), (some ⟨1, 1, 3⟩, some 90)]
      = some (-815)
    ∧ listMax ((dropna
        [(some ⟨1, 1, 1⟩, some 100), (some ⟨1, 1, 2⟩, some 95), (some ⟨1, 1, 3⟩, some 90)]).map
          Prod.snd) = 100
    ∧ (-815 : ℚ) ≠ max (-815) 100 := by
  refine ⟨?_, ?_, by norm_num⟩
  · norm_num [plotProjection, dropna, olsFit, maxDate, Date.addMonths6, Date.toOrdinal,
      daysBeforeMonth, daysInMonth, isLeap, List.range, List.range.loop, List.filterMap]
  · norm_num [dropna, listMax, List.filterMap]

theorem interpAt_eq (s : List ℚ) (h : ℚ) :
    interpAt s h = s.getD (⌊h⌋).toNat 0
      + (h - (((⌊h⌋).toNat : ℕ) : ℚ))
        * (s.getD ((⌊h⌋).toNat + 1) (s.getD (⌊h⌋).toNat 0) - s.getD (⌊h⌋).toNat 0) := rfl

theorem getD_mono_of_sorted {s : List ℚ} (hs : s.Sorted (· ≤ ·)) {i j : ℕ}
    (hij : i ≤ j) (hj : j < s.length) : s.getD i 0 ≤ s.getD j 0 := by
  have hi : i < s.length := lt_of_le_of_lt hij hj
  rw [List.getD_eq_getElem _ _ hi, List.getD_eq_getElem _ _ hj]
  rcases eq_or_lt_of_le hij with rfl | hlt
  · exact le_refl _
  · exact List.pairwise_iff_getElem.mp hs i j hi hj hlt

theorem getD_succ_ge {s : List ℚ} (hs : s.Sorted (· ≤ ·)) (i : ℕ) :
    s.getD i 0 ≤ s.getD (i + 1) (s.getD i 0) := by
  by_cases h1 : i + 1 < s.length
  · rw [List.getD_eq_getElem _ _ h1, List.getD_eq_getElem _ _ (by omega : i < s.length)]
    exact List.pairwise_iff_getElem.mp hs i (i + 1) (by omega) h1 (by omega)
  · rw [List.getD_eq_default _ _ (by omega : s.length ≤ i + 1)]

theorem interpAt_mono {s : List ℚ} (hs : s.Sorted (· ≤ ·)) {x y : ℚ}
    (hx0 : 0 ≤ x) (hxy : x ≤ y) (hyn : y ≤ ((s.length - 1 : ℕ) : ℚ)) :
    interpAt s x ≤ interpAt s y := by
  have hy0 : 0 ≤ y := le_trans hx0 hxy
  have hcX : (((⌊x⌋).toNat : ℕ) : ℚ) = ((⌊x⌋ : ℤ) : ℚ) := by
    exact_mod_cast congrArg (fun z : ℤ => (z : ℚ))
      (Int.toNat_of_nonneg (Int.floor_nonneg.mpr hx0))
  have hcY : (((⌊y⌋).toNat : ℕ) : ℚ) = ((⌊y⌋ : ℤ) : ℚ) := by
    exact_mod_cast congrArg (fun z : ℤ => (z : ℚ))
      (Int.toNat_of_nonneg (Int.floor_nonneg.mpr hy0))
  have hfXY : (⌊x⌋).toNat ≤ (⌊y⌋).toNat := Int.toNat_le_toNat (Int.floor_mono hxy)
  have hiYm : (⌊y⌋).toNat ≤ s.length - 1 := by
    have hq : (((⌊y⌋).toNat : ℕ) : ℚ) ≤ ((s.length - 1 : ℕ) : ℚ) := by
      rw [hcY]; exact le_trans (Int.floor_le y) hyn
    exact_mod_cast hq
  have hxlow : (((⌊x⌋).toNat : ℕ) : ℚ) ≤ x := by rw [hcX]; exact Int.floor_le x
  have hxhigh : x ≤ (((⌊x⌋).toNat : ℕ) : ℚ) + 1 := by
    rw [hcX]; exact_mod_cast (Int.lt_floor_add_one x).le
  have hylow : (((⌊y⌋).toNat : ℕ) : ℚ) ≤ y := by rw [hcY]; exact Int.floor_le y
  have hloleX := getD_succ_ge hs ((⌊x⌋).toNat)
  have hloleY := getD_succ_ge hs ((⌊y⌋).toNat)
  rw [interpAt_eq, interpAt_eq]
  rcases eq_or_lt_of_le hfXY with hEq | hLt
  · rw [hEq]
    have hd : (0 : ℚ) ≤ s.getD ((⌊y⌋).toNat + 1) (s.getD (⌊y⌋).toNat 0)
        - s.getD (⌊y⌋).toNat 0 := sub_nonneg.mpr hloleY
    have hmul := mul_le_mul_of_nonneg_right
      (sub_le_sub_right hxy ((((⌊y⌋).toNat : ℕ)) : ℚ)) hd
    rw [hEq] at hxlow hxhigh hloleX
    linarith
  · have hn : (⌊y⌋).toNat < s.length := by omega
    have hX1n : (⌊x⌋).toNat + 1 < s.length := by omega
    have hXn : (⌊x⌋).toNat < s.length := by omega
    have hhiX : s.getD ((⌊x⌋).toNat + 1) (s.getD (⌊x⌋).toNat 0)
        = s.getD ((⌊x⌋).toNat + 1) 0 := by
      rw [List.getD_eq_getElem _ _ hX1n, List.getD_eq_getElem _ _ hX1n]
    rw [hhiX] at hloleX ⊢
    have hdX : (0 : ℚ) ≤ s.getD ((⌊x⌋).toNat + 1) 0 - s.getD (⌊x⌋).toNat 0 :=
      sub_nonneg.mpr hloleX
    have hgX : x - (((⌊x⌋).toNat : ℕ) : ℚ) ≤ 1 := by linarith
    have step1 : s.getD (⌊x⌋).toNat 0
        + (x - (((⌊x⌋).toNat : ℕ) : ℚ))
          * (s.getD ((⌊x⌋).toNat + 1) 0 - s.getD (⌊x⌋).toNat 0)
        ≤ s.getD ((⌊x⌋).toNat + 1) 0 := by
      have := mul_le_mul_of_nonneg_right hgX hdX
      linarith
    have step2 : s.getD ((⌊x⌋).toNat + 1) 0 ≤ s.getD (⌊y⌋).toNat 0 :=
      getD_mono_of_sorted hs (by omega) hn
    have hdY : (0 : ℚ) ≤ s.getD ((⌊y⌋).toNat + 1) (s.getD (⌊y⌋).toNat 0)
        - s.getD (⌊y⌋).toNat 0 := sub_nonneg.mpr hloleY
    have step3 : s.getD (⌊y⌋).toNat 0
        ≤ s.getD (⌊y⌋).toNat 0
          + (y - (((⌊y⌋).toNat : ℕ) : ℚ))
            * (s.getD ((⌊y⌋).toNat + 1) (s.getD (⌊y⌋).toNat 0) - s.getD (⌊y⌋).toNat 0) := by
      have := mul_nonneg (sub_nonneg.mpr hylow) hdY
      linarith
    linarith

theorem interpQuantile_mono {s : List ℚ} (hs : s.Sorted (· ≤ ·)) {p q : ℚ}
    (hp0 : 0 ≤ p) (hpq : p ≤ q) (hq1 : q ≤ 1) :
    interpQuantile s p ≤ interpQuantile s q := by
  rw [interpQuantile, interpQuantile]
  by_cases h0 : s.length = 0
  · simp [h0]
  · rw [if_neg h0, if_neg h0]
    refine interpAt_mono hs (mul_nonneg (Nat.cast_nonneg _) hp0)
      (mul_le_mul_of_nonneg_left hpq (Nat.cast_nonneg _)) ?_
    calc ((s.length - 1 : ℕ) : ℚ) * q
        ≤ ((s.length - 1 : ℕ) : ℚ) * 1 := mul_le_mul_of_nonneg_left hq1 (Nat.cast_nonneg _)
      _ = ((s.length - 1 : ℕ) : ℚ) := mul_one _

theorem quantile_mono (l : List ℚ) {p q : ℚ} (hp0 : 0 ≤ p) (hpq : p ≤ q) (hq1 : q ≤ 1) :
    quantile l p ≤ quantile l q :=
  interpQuantile_mono (List.sorted_insertionSort _ l) hp0 hpq hq1

theorem percentileLessThan_bounds (series : List (Option ℚ)) (v : ℚ) :
    0 ≤ percentileLessThan series v ∧ percentileLessThan series v ≤ 100 := by
  simp only [percentileLessThan]
  by_cases h : (validValues series).length = 0
  · simp [h]
  · rw [if_neg h]
    have hc : (((validValues series).countP (fun x => decide (x < v)) : ℕ) : ℚ)
        ≤ (((validValues series).length : ℕ) : ℚ) := by
      exact_mod_cast List.countP_le_length _
    have hn : (0 : ℚ) < (((validValues series).length : ℕ) : ℚ) := by
      exact_mod_cast Nat.pos_of_ne_zero h
    constructor
    · positivity
    · have hdiv : (((validValues series).countP (fun x => decide (x < v)) : ℕ) : ℚ)
          / (((validValues series).length : ℕ) : ℚ) ≤ 1 := (div_le_one hn).mpr hc
      nlinarith

/-- C5: for every non-empty cohort (and any finite user value), the
percentile lies in `[0, 100]` and the pandas quantile thresholds at
0.50, 0.75, 0.90, 0.95 are monotonically non-decreasing. -/
theorem percentile_result_guarantees (cohort : List ℚ) (v : ℚ) (_hne : cohort ≠ []) :
    0 ≤ percentileLessThan (cohort.map some) v
    ∧ percentileLessThan (cohort.map some) v ≤ 100
    ∧ quantile cohort 0.50 ≤ quantile cohort 0.75
    ∧ quantile cohort 0.75 ≤ quantile cohort 0.90
    ∧ quantile cohort 0.90 ≤ quantile cohort 0.95 :=
  ⟨(percentileLessThan_bounds _ v).1, (percentileLessThan_bounds _ v).2,
   quantile_mono cohort (by norm_num) (by norm_num) (by norm_num),
   quantile_mono cohort (by norm_num) (by norm_num) (by norm_num),
   quantile_mono cohort (by norm_num) (by norm_num) (by norm_num)⟩

/-- Witness for C5 at the spec's concrete cohort. -/
theorem percentile_result_guarantees_witness :
    0 ≤ percentileLessThan (([80, 90, 100, 110, 120] : List ℚ).map some) 95
    ∧ percentileLessThan (([80, 90, 100, 110, 120] : List ℚ).map some) 95 ≤ 100
    ∧ quantile [80, 90, 100, 110, 120] 0.50 ≤ quantile [80, 90, 100, 110, 120] 0.75
    ∧ quantile [80, 90, 100, 110, 120] 0.75 ≤ quantile [80, 90, 100, 110, 120] 0.90
    ∧ quantile [80, 90, 100, 110, 120] 0.90 ≤ quantile [80, 90, 100, 110, 120] 0.95 :=
  percentile_result_guarantees [80, 90, 100, 110, 120] 95 (by simp)

end Dashboard
